import Mathlib

/-!
Verification of the expense-tracker ledger core in
`src/expensetracker/run.py` (classes `Expense` and `ExpenseTracker`).

The Python code is shallowly embedded as executable Lean definitions:

* Python floats (expense amounts, the budget) are modelled as rationals;
  comparisons on them are exact, as in the source.
* The Google-Sheets worksheet behind `gspread` is modelled as a grid of
  cell strings (`Grid`, a list of rows); `gspread`'s `find`, `col_values`
  and `update` primitives are modelled on that grid.  A backend read that
  raises is modelled by handing the adapter `none` instead of a grid.
* Python exceptions are made explicit: a function that can propagate an
  exception returns `Except σ α`, where the `σ` carried by `Except.error`
  is the in-memory state at the moment the exception escapes; caught
  exceptions turn into an error-log counter (`logging.error` calls).
* `input()` values are passed in as explicit `String` arguments, and the
  Python conversions `int(...)` / `float(...)` on them are modelled by
  the executable parsers `pyInt?` / `pyFloat?` (returning `none` where
  Python would raise `ValueError`).
* `str` applied to a stored float amount in `save_expenses` is an
  external Python-runtime behaviour; it is kept as an abstract
  serializer parameter `ser : ℚ → String`, and the statements about
  `save_expenses` hold for every serializer.
-/

namespace ExpenseTracker

/-- The `Expense` class of run.py: a record of `name`, `amount` and
`category`, with the float `amount` modelled as a rational. -/
structure Expense where
  name : String
  amount : ℚ
  category : String
  deriving DecidableEq, Repr

/-! ### Models of Python `int()` / `float()` on input strings -/

/-- Digit-string parsing shared by the models of Python `int()` and
`float()`: a nonempty all-digit character list read as a natural number. -/
def parseDigits? : List Char → Option Nat
  | [] => none
  | cs =>
    if cs.all Char.isDigit then
      some (cs.foldl (fun n c => 10 * n + (c.toNat - 48)) 0)
    else none

/-- Python `int(s)`: optional sign followed by digits; `none` models a
raised `ValueError`. -/
def pyInt? (s : String) : Option Int :=
  match s.data with
  | '-' :: r => (parseDigits? r).map (fun n => -(n : Int))
  | '+' :: r => (parseDigits? r).map (fun n => (n : Int))
  | r => (parseDigits? r).map (fun n => (n : Int))

/-- Powers of ten used to scale the fractional part of a decimal. -/
def tenPow : Nat → Nat
  | 0 => 1
  | n + 1 => 10 * tenPow n

/-- Unsigned decimal numeral: digits, optionally with one dot, at least
one digit overall (`"5"`, `"5."`, `".5"`, `"1.5"`). -/
def pyFloatBody? (cs : List Char) : Option ℚ :=
  let intPart := cs.takeWhile (fun c => c ≠ '.')
  match cs.dropWhile (fun c => c ≠ '.') with
  | [] => (parseDigits? intPart).map (fun n => (n : ℚ))
  | _ :: fracPart =>
    if fracPart.any (fun c => c = '.') then none
    else if intPart = [] ∧ fracPart = [] then none
    else
      match (if intPart = [] then some 0 else parseDigits? intPart),
          (if fracPart = [] then some 0 else parseDigits? fracPart) with
      | some n, some f =>
        some ((n : ℚ) + (f : ℚ) / (tenPow fracPart.length : ℚ))
      | _, _ => none

/-- Python `float(s)` restricted to plain decimal notation (all the
inputs the tracker meets); `none` models a raised `ValueError`. -/
def pyFloat? (s : String) : Option ℚ :=
  match s.data with
  | '-' :: r => (pyFloatBody? r).map (fun q => -q)
  | '+' :: r => pyFloatBody? r
  | r => pyFloatBody? r

/-! ### The worksheet grid and the adapter (`load_data`) -/

/-- A worksheet modelled as its rows of cell strings. -/
abbrev Grid := List (List String)

/-- First position of `needle` within one row (left to right), as
`gspread`'s row-major `find` scans a row. -/
def findInRow (needle : String) : List String → Option Nat
  | [] => none
  | c :: rest =>
    if c = needle then some 0
    else (findInRow needle rest).map (fun j => j + 1)

/-- `sheet.find(needle)`: row-major scan for the first cell equal to
`needle`, returning its 0-based (row, column) position. -/
def findCell (needle : String) : Grid → Option (Nat × Nat)
  | [] => none
  | row :: rest =>
    match findInRow needle row with
    | some j => some (0, j)
    | none => (findCell needle rest).map (fun rc => (rc.1 + 1, rc.2))

/-- Trailing empty cells are absent from `col_values`' result. -/
def dropTrailingEmpty (l : List String) : List String :=
  (l.reverse.dropWhile (fun s => s == "")).reverse

/-- `sheet.col_values(c)` for 0-based column `c`: the column's cells from
the top, with trailing empty cells dropped. -/
def colValues (g : Grid) (c : Nat) : List String :=
  dropTrailingEmpty (g.map (fun row => row.getD c ""))

/-- `ExpenseTracker.load_data(sheet, column)`.  The backend is `some g`
for a readable grid and `none` for a read that raises.  Result: the data
cells (after `data.pop(0)` removed the first cell) paired with the number
of `logger.error` calls.  A raising backend and a `pop` from an empty
list are both caught by the method's `except`, logged once, and turned
into an empty list; an absent header returns an empty list without
logging. -/
def load_data (backend : Option Grid) (column : String) : List String × Nat :=
  match backend with
  | none => ([], 1)
  | some g =>
    match findCell column g with
    | none => ([], 0)
    | some rc =>
      match colValues g rc.2 with
      | [] => ([], 1)
      | _ :: rest => (rest, 0)

/-! ### Loading and saving expenses -/

/-- The loop body of `load_expenses`: build `Expense` objects from zipped
(name, amount-string, category) triples; `none` models the `ValueError`
raised by `float(amount)` on an unparseable amount, which aborts the
whole loop. -/
def buildExpenses : List (String × String × String) → Option (List Expense)
  | [] => some []
  | t :: rest =>
    match pyFloat? t.2.1 with
    | none => none
    | some q => (buildExpenses rest).map (fun l => Expense.mk t.1 q t.2.2 :: l)

/-- `load_expenses`' reconstruction from the three already-read columns:
positional zip (stopping at the shortest column), amounts parsed by
`float`; the surrounding `try/except` converts a parse failure into the
empty list. -/
def buildFromCols (nd ad cd : List String) : List Expense :=
  (buildExpenses (nd.zip (ad.zip cd))).getD []

/-- `ExpenseTracker.load_expenses`: read the three expense columns by
header name through `load_data` and zip them into `Expense` objects. -/
def load_expenses (g : Grid) : List Expense :=
  buildFromCols (load_data (some g) ("Expense Name")).1
    (load_data (some g) ("Amount")).1
    (load_data (some g) ("Category")).1

/-- `ExpenseTracker.save_expenses`: `data_to_save` is the list of three
rows `["Expense Name"] + names`, `["Amount"] + amounts-as-strings`,
`["Category"] + categories`, and `sheet.clear()` followed by
`sheet.update(data_to_save)` leaves the worksheet holding exactly those
three ROWS (gspread's `update` takes a list of rows).  `ser` stands for
Python's `str` on the float amount. -/
def save_expenses (ser : ℚ → String) (es : List Expense) : Grid :=
  [("Expense Name") :: es.map (fun e => e.name),
   ("Amount") :: es.map (fun e => ser e.amount),
   ("Category") :: es.map (fun e => e.category)]

/-- `ExpenseTracker.__init__` starts with `self.expenses = []`. -/
def initExpenses : List Expense := []

/-- `ExpenseTracker.run` startup (run.py line 383): it evaluates
`self.load_expenses()` but never assigns the result, so the tracker's
in-memory expense list keeps its `__init__` value `[]`. -/
def runStartup (g : Grid) : List Expense :=
  let _loaded := load_expenses g
  initExpenses

/-- A stored expenses worksheet in the natural layout (headers in row 1)
holding one expense row. -/
def startupGrid : Grid :=
  [["Expense Name", "Amount", "Category"],
   ["Lunch", "5.0", "Food"]]

/-- A stored expenses worksheet whose name and category columns hold 3
data cells but whose amount column holds only 2. -/
def misalignedGrid : Grid :=
  [["Expense Name", "Amount", "Category"],
   ["a", "1.5", "food"],
   ["b", "2", "misc"],
   ["c", "", "other"]]

/-! ### Category management (`save_data`, `manage_items`, `edit_item`,
`delete_item`) -/

/-- A Python list cell as it occurs in the category list: a plain string
label, or the one-element list `[column]` that `save_data` inserts as a
header. -/
inductive Cell where
  | str : String → Cell
  | row : List String → Cell
  deriving DecidableEq, Repr

/-- `ExpenseTracker.save_data(sheet, data, column)`: clear the column,
then `data.insert(0, [column])` (an in-place mutation of the caller's
list), then write `data` to the column.  `backendOk` abstracts whether
the backend update calls succeed; on failure the `except` logs once and
nothing is written.  Result: (the caller's `data` list after the call,
the persisted column content, error-log count). -/
def save_data (backendOk : Bool) (stored : List Cell) (data : List Cell)
    (column : String) : List Cell × List Cell × Nat :=
  if backendOk then
    let data1 := Cell.row [column] :: data
    (data1, data1, 0)
  else
    (data, stored, 1)

/-- The add branch (choice "2") of `ExpenseTracker.manage_items`: reject
an already-present label, otherwise append it and persist the category
list via `save_data(self.categories_sheet, items, "Category")`.
Result: (items after the call, persisted column, error-log count,
whether the add was accepted). -/
def manage_add (backendOk : Bool) (items : List Cell) (stored : List Cell)
    (newItem : String) : List Cell × List Cell × Nat × Bool :=
  if Cell.str newItem ∈ items then
    (items, stored, 0, false)
  else
    let r := save_data backendOk stored (items ++ [Cell.str newItem]) ("Category")
    (r.1, r.2.1, r.2.2, true)

/-- `ExpenseTracker.edit_item(items, item_type)` with the index and
replacement inputs made explicit.  Its whole body sits in `try/except`:
a non-numeric index is a caught `ValueError` (logged); on a valid index
the list cell is assigned, after which `self.save_data(items,
self.categories_file_path)` raises `AttributeError` (the attribute does
not exist) which is caught and logged — the store is never written.
Result: (items after the call, persisted column, error-log count). -/
def edit_item (items : List Cell) (stored : List Cell)
    (idxInput newValue : String) : List Cell × List Cell × Nat :=
  match pyInt? idxInput with
  | none => (items, stored, 1)
  | some v =>
    if 0 ≤ v - 1 ∧ v - 1 < (items.length : Int) then
      (items.set (v - 1).toNat (Cell.str newValue), stored, 1)
    else
      (items, stored, 0)

/-- `ExpenseTracker.delete_item(items, item_type)`: same shape as
`edit_item` — the `pop` happens, then the broken
`self.save_data(items, self.categories_file_path)` call raises
`AttributeError`, caught and logged; the store is never written. -/
def delete_item (items : List Cell) (stored : List Cell)
    (idxInput : String) : List Cell × List Cell × Nat :=
  match pyInt? idxInput with
  | none => (items, stored, 1)
  | some v =>
    if 0 ≤ v - 1 ∧ v - 1 < (items.length : Int) then
      (items.eraseIdx (v - 1).toNat, stored, 1)
    else
      (items, stored, 0)

/-! ### Editing / removing expenses -/

/-- `ExpenseTracker.edit_or_remove_expense` with all `input()` values as
explicit arguments.  Nothing in it is wrapped in `try/except`, so a
`ValueError` from `int(...)`/`float(...)` propagates to the caller
(`run`'s menu loop, which also has no handler): that is `Except.error`,
carrying the in-memory expense list at the moment the exception escapes.
In the edit branch the name field is assigned before `float(updated_amount)`
is evaluated, so the error state can already differ from the input state.
`Except.ok` carries (expense list after the call, whether
`save_expenses` was triggered). -/
def edit_or_remove_expense (es : List Expense)
    (idxInput choiceInput nameIn amtIn catIn : String) :
    Except (List Expense) (List Expense × Bool) :=
  match pyInt? idxInput with
  | none => Except.error es
  | some v =>
    let i := v - 1
    if 0 ≤ i ∧ i < (es.length : Int) then
      if choiceInput = "1" then
        let e0 := es.getD i.toNat (Expense.mk ("") 0 (""))
        let e1 := if nameIn ≠ "" then { e0 with name := nameIn } else e0
        if amtIn ≠ "" then
          match pyFloat? amtIn with
          | none => Except.error (es.set i.toNat e1)
          | some q =>
            let e2 := { e1 with amount := q }
            let e3 := if catIn ≠ "" then { e2 with category := catIn } else e2
            Except.ok (es.set i.toNat e3, true)
        else
          let e3 := if catIn ≠ "" then { e1 with category := catIn } else e1
          Except.ok (es.set i.toNat e3, true)
      else if choiceInput = "2" then
        Except.ok (es.eraseIdx i.toNat, true)
      else
        Except.ok (es, false)
    else
      Except.ok (es, false)

/-! ### Summarizing (`summarize_expenses`) -/

/-- The running total of `summarize_expenses`:
`total_expenses += expense.amount` over the expense list. -/
def totalExpenses (es : List Expense) : ℚ :=
  es.foldl (fun t e => t + e.amount) 0

/-- One loop step of `summarize_expenses` on the `category_totals` dict
(modelled as an insertion-ordered association list, as Python dicts are):
`category_totals[c] = category_totals.get(c, 0) + amount` updates an
existing key in place and appends an absent key at the end. -/
def stepTotals (m : List (String × ℚ)) (e : Expense) : List (String × ℚ) :=
  if m.any (fun p => p.1 == e.category) then
    m.map (fun p => if p.1 == e.category then (p.1, p.2 + e.amount) else p)
  else m ++ [(e.category, e.amount)]

/-- The `category_totals` dict built by `summarize_expenses`. -/
def categoryTotals (es : List Expense) : List (String × ℚ) :=
  es.foldl stepTotals []

/-- Spec-side sum of all amounts of an expense list. -/
def sumAmounts (es : List Expense) : ℚ :=
  (es.map (fun e => e.amount)).sum

/-- Spec-side value bound to key `c` in an association list (summed, so
it is meaningful even before key-uniqueness is established). -/
def valueAt (c : String) (m : List (String × ℚ)) : ℚ :=
  (m.map (fun p => if p.1 == c then p.2 else 0)).sum

/-- Spec-side sum of the amounts of exactly the expenses whose category
equals `c` (exact, case-sensitive string match). -/
def sumMatching (c : String) (es : List Expense) : ℚ :=
  ((es.filter (fun e => e.category == c)).map (fun e => e.amount)).sum

/-- The key sequence of an association list. -/
def totalsKeys (m : List (String × ℚ)) : List String :=
  m.map Prod.fst

/-- The sum of the values of an association list
(`sum(category_totals.values())` in the spec). -/
def sumValues (m : List (String × ℚ)) : ℚ :=
  (m.map Prod.snd).sum

/-- Spec-side first-seen-order deduplication: each label in order of its
first occurrence, starting from already-listed keys `acc`. -/
def firstSeen (acc : List String) : List String → List String
  | [] => acc
  | c :: r => firstSeen (if c ∈ acc then acc else acc ++ [c]) r

/-- The three-way budget classification of `summarize_expenses`, named by
the color passed to `colorize`: `total < budget` → "green" (under
budget), `total > budget` → "red" (over budget), equality → "white". -/
def summarizeIndicator (es : List Expense) (budget : ℚ) : String :=
  let t := totalExpenses es
  if t < budget then ("green")
  else if t > budget then ("red")
  else ("white")

/-! ## Theorems -/

/-- C3: the claim reads "every accepted mutating category action re-persists
the Category column with the resulting in-memory category sequence".  The
add action does persist, but the accepted edit and delete actions do not:
`edit_item`/`delete_item` mutate the in-memory list and then call
`self.save_data(items, self.categories_file_path)`, which raises
`AttributeError` (the attribute does not exist anywhere in the class and the
call is also missing `save_data`'s third argument); the `except` swallows it
with one log entry and the store is left untouched.  Evaluated here at
concrete failing inputs: an accepted edit of category 1 and an accepted
delete of category 2 change the list, log one error, and leave the
persisted column `stored` unchanged for every `stored`. -/
theorem c3_category_edit_delete_unpersisted (stored : List Cell) :
    edit_item [Cell.str ("Food")] stored ("1") ("Dining")
      = ([Cell.str ("Dining")], stored, 1)
  ∧ delete_item [Cell.str ("Food"), Cell.str ("Bus")] stored ("2")
      = ([Cell.str ("Food")], stored, 1) :=
  ⟨rfl, rfl⟩

/-- C4 counterexample: the claim says core operations never raise an uncaught
failure to the top level, but `edit_or_remove_expense` evaluates
`int(input(...))` outside any `try`: on the non-numeric index text "x" the
`ValueError` propagates out of the method (and `run`'s menu loop has no
handler either), modelled by `Except.error`. -/
theorem c4_counterexample :
    edit_or_remove_expense [] ("x") ("") ("") ("") ("") = Except.error [] :=
  rfl

/-- C4 (amended): when the numeric inputs parse — the index text parses as an
integer and the amount text is empty or parses as a float —
`edit_or_remove_expense` completes without raising; the unguarded failures
are exactly the `int(...)`/`float(...)` conversions on non-numeric text. -/
theorem c4_amended_no_raise (es : List Expense)
    (idxIn choiceIn nameIn amtIn catIn : String)
    (h1 : (pyInt? idxIn).isSome = true)
    (h2 : amtIn = "" ∨ (pyFloat? amtIn).isSome = true) :
    ∃ r, edit_or_remove_expense es idxIn choiceIn nameIn amtIn catIn
      = Except.ok r := by
  obtain ⟨k, hk⟩ := Option.isSome_iff_exists.mp h1
  unfold edit_or_remove_expense
  rw [hk]
  dsimp only
  by_cases hr : 0 ≤ k - 1 ∧ k - 1 < (es.length : Int)
  · rw [if_pos hr]
    by_cases hc : choiceIn = "1"
    · rw [if_pos hc]
      by_cases ha : amtIn = ""
      · rw [if_neg (not_not_intro ha)]
        exact ⟨_, rfl⟩
      · rw [if_pos ha]
        rcases h2 with h2 | h2
        · exact absurd h2 ha
        · obtain ⟨q, hq⟩ := Option.isSome_iff_exists.mp h2
          rw [hq]
          exact ⟨_, rfl⟩
    · rw [if_neg hc]
      by_cases hc2 : choiceIn = "2"
      · rw [if_pos hc2]
        exact ⟨_, rfl⟩
      · rw [if_neg hc2]
        exact ⟨_, rfl⟩
  · rw [if_neg hr]
    exact ⟨_, rfl⟩

/-- C4 witness: a fully parseable edit of expense 1 returns normally. -/
theorem c4_witness :
    (pyInt? ("1")).isSome = true
  ∧ (pyFloat? ("2.5")).isSome = true
  ∧ ∃ r, edit_or_remove_expense [Expense.mk ("a") 1 ("b")]
      ("1") ("1") ("z") ("2.5") ("c") = Except.ok r :=
  ⟨rfl, rfl,
    c4_amended_no_raise [Expense.mk ("a") 1 ("b")]
      ("1") ("1") ("z") ("2.5") ("c") rfl (Or.inr rfl)⟩

/-- C8: invoking `edit_or_remove_expense` with a 1-based index of 0 or
greater than the current length is rejected: `index - 1` fails the
`in range(len(self.expenses))` check, the method prints "Invalid expense
index." and returns with the expense list unchanged and `save_expenses`
never triggered (the saved flag is `false`). -/
theorem c8_out_of_range_rejected (es : List Expense)
    (idxIn choiceIn nameIn amtIn catIn : String) (k : Int)
    (hk : pyInt? idxIn = some k)
    (hrange : k = 0 ∨ (es.length : Int) < k) :
    edit_or_remove_expense es idxIn choiceIn nameIn amtIn catIn
      = Except.ok (es, false) := by
  unfold edit_or_remove_expense
  rw [hk]
  dsimp only
  rw [if_neg (by omega)]

/-- C8 witness: index input "0" on a one-expense list is rejected with no
mutation and no save. -/
theorem c8_witness :
    pyInt? ("0") = some 0
  ∧ edit_or_remove_expense [Expense.mk ("a") 1 ("b")] ("0") ("1")
      ("") ("") ("") = Except.ok ([Expense.mk ("a") 1 ("b")], false) :=
  ⟨rfl,
    c8_out_of_range_rejected [Expense.mk ("a") 1 ("b")] ("0") ("1")
      ("") ("") ("") 0 rfl (Or.inl rfl)⟩

/-- C10: `save_data` mutates the caller's `data` list in place by
`data.insert(0, [column])` before writing, and writes that mutated list; as
a consequence an accepted category add leaves the in-memory category list
beginning with the inserted header element `[column]` (a one-element list,
not a plain label), followed by the old labels and the new one. -/
theorem c10_save_data_mutates_caller (stored data items : List Cell)
    (column newItem : String) (hnew : Cell.str newItem ∉ items) :
    ((save_data true stored data column).1 = Cell.row [column] :: data
      ∧ (save_data true stored data column).2.1 = Cell.row [column] :: data)
  ∧ (manage_add true items stored newItem).1
      = Cell.row [("Category")] :: (items ++ [Cell.str newItem])
  ∧ ((manage_add true items stored newItem).1).head?
      = some (Cell.row [("Category")]) := by
  refine ⟨⟨rfl, rfl⟩, ?_, ?_⟩
  · unfold manage_add
    rw [if_neg hnew]
    rfl
  · unfold manage_add
    rw [if_neg hnew]
    rfl

/-- C10 witness: adding "misc" to the category list ["food"] leaves the
in-memory list headed by the inserted `["Category"]` element. -/
theorem c10_witness :
    Cell.str ("misc") ∉ [Cell.str ("food")]
  ∧ (manage_add true [Cell.str ("food")] [] ("misc")).1
      = Cell.row [("Category")] :: ([Cell.str ("food")] ++ [Cell.str ("misc")]) :=
  ⟨by decide,
    (c10_save_data_mutates_caller [] [] [Cell.str ("food")] ("x") ("misc")
      (by decide)).2.1⟩

/-- Evaluation of the float parser on the stored amount text "5.0". -/
theorem pyFloat_fiveDotZero : pyFloat? ("5.0") = some 5 := by
  show some (((5 : ℕ) : ℚ) + ((0 : ℕ) : ℚ) / ((tenPow 1 : ℕ) : ℚ)) = some 5
  norm_num [tenPow]

/-- Evaluation of the float parser on the stored amount text "1.5". -/
theorem pyFloat_oneDotFive : pyFloat? ("1.5") = some (3 / 2) := by
  show some (((1 : ℕ) : ℚ) + ((5 : ℕ) : ℚ) / ((tenPow 1 : ℕ) : ℚ)) = some (3 / 2)
  norm_num [tenPow]

/-- Evaluation of the float parser on the stored amount text "2". -/
theorem pyFloat_two : pyFloat? ("2") = some 2 := by
  show some (((2 : ℕ) : ℚ)) = some 2
  norm_num

/-- When every amount string in the zipped triples parses, the
`load_expenses` loop succeeds and yields one `Expense` per triple,
positionally. -/
theorem buildExpenses_eq_some (l : List (String × String × String))
    (h : ∀ t ∈ l, (pyFloat? t.2.1).isSome = true) :
    buildExpenses l
      = some (l.map (fun t => Expense.mk t.1 ((pyFloat? t.2.1).getD 0) t.2.2)) := by
  induction l with
  | nil => rfl
  | cons t rest ih =>
    obtain ⟨q, hq⟩ :=
      Option.isSome_iff_exists.mp (h t (List.mem_cons_self t rest))
    have hrest := ih (fun u hu => h u (List.mem_cons_of_mem t hu))
    simp only [buildExpenses, hq, hrest, Option.map_some', List.map_cons,
      Option.getD_some]

/-- C7: loading from misaligned columns yields exactly
`min (len names) (min (len amounts) (len categories))` expenses, taken
positionally from the front of each column (zip stops at the shortest
column), provided the surviving amount cells parse; concretely, the grid
whose name and category columns hold 3 data cells while the amount column
holds 2 loads exactly the 2 front expenses. -/
theorem c7_misaligned_load (nd ad cd : List String)
    (h : ∀ a ∈ ad, (pyFloat? a).isSome = true) :
    buildFromCols nd ad cd
      = (nd.zip (ad.zip cd)).map
          (fun t => Expense.mk t.1 ((pyFloat? t.2.1).getD 0) t.2.2)
  ∧ (buildFromCols nd ad cd).length
      = min nd.length (min ad.length cd.length)
  ∧ load_expenses misalignedGrid
      = [Expense.mk ("a") (3 / 2) ("food"), Expense.mk ("b") 2 ("misc")] := by
  have hmem : ∀ t ∈ nd.zip (ad.zip cd), (pyFloat? t.2.1).isSome = true := by
    rintro ⟨n, a, c⟩ ht
    exact h a (List.of_mem_zip (List.of_mem_zip ht).2).1
  have hb := buildExpenses_eq_some (nd.zip (ad.zip cd)) hmem
  refine ⟨?_, ?_, ?_⟩
  · unfold buildFromCols
    rw [hb]
    rfl
  · unfold buildFromCols
    rw [hb]
    simp
  · show (buildExpenses [(("a"), ("1.5"), ("food")), (("b"), ("2"), ("misc"))]).getD []
      = [Expense.mk ("a") (3 / 2) ("food"), Expense.mk ("b") 2 ("misc")]
    simp only [buildExpenses, pyFloat_oneDotFive, pyFloat_two, Option.map_some']
    rfl

/-- C7 witness: columns of data lengths 3, 2, 3 load exactly 2 expenses. -/
theorem c7_witness :
    (∀ a ∈ [("1.5"), ("2")], (pyFloat? a).isSome = true)
  ∧ (buildFromCols [("a"), ("b"), ("c")] [("1.5"), ("2")]
      [("food"), ("misc"), ("other")]).length = 2 := by
  refine ⟨by decide, ?_⟩
  rw [(c7_misaligned_load [("a"), ("b"), ("c")] [("1.5"), ("2")]
    [("food"), ("misc"), ("other")] (by decide)).2.1]
  decide

/-- C1: the claim says the reconstruction produced by the startup load is
installed as the tracker's expense state.  In the code `run()` (line 383)
evaluates `self.load_expenses()` without assigning the result (and the
actual `__main__` entry point `main()` never calls it at all), so after
startup the in-memory list is still the `__init__` value `[]`, while the
reconstruction from the same stored grid is the non-empty loaded list. -/
theorem c1_startup_discards_load :
    runStartup startupGrid = []
  ∧ load_expenses startupGrid = [Expense.mk ("Lunch") 5 ("Food")]
  ∧ runStartup startupGrid ≠ load_expenses startupGrid := by
  have hload : load_expenses startupGrid = [Expense.mk ("Lunch") 5 ("Food")] := by
    show (buildExpenses [(("Lunch"), ("5.0"), ("Food"))]).getD []
      = [Expense.mk ("Lunch") 5 ("Food")]
    simp only [buildExpenses, pyFloat_fiveDotZero, Option.map_some']
    rfl
  refine ⟨rfl, hload, ?_⟩
  rw [hload]
  simp [runStartup, initExpenses]

/-- A needle absent from a row is not found by the in-row scan. -/
theorem findInRow_eq_none (needle : String) (l : List String)
    (h : needle ∉ l) : findInRow needle l = none := by
  induction l with
  | nil => rfl
  | cons c rest ih =>
    have hc : ¬c = needle := fun hc => h (hc ▸ List.mem_cons_self c rest)
    rw [findInRow, if_neg hc, ih (fun hm => h (List.mem_cons_of_mem c hm))]
    rfl

/-- The cell at the position returned by the in-row scan is the needle. -/
theorem findInRow_getD (needle : String) (l : List String) (j : Nat)
    (h : findInRow needle l = some j) : l.getD j ("") = needle := by
  induction l generalizing j with
  | nil => exact absurd h (by rw [findInRow]; exact Option.noConfusion)
  | cons c rest ih =>
    rw [findInRow] at h
    by_cases hc : c = needle
    · rw [if_pos hc] at h
      obtain rfl : (0 : Nat) = j := Option.some.inj h
      exact hc
    · rw [if_neg hc] at h
      obtain ⟨j0, hj0, rfl⟩ := Option.map_eq_some'.mp h
      rw [List.getD_cons_succ]
      exact ih j0 hj0

/-- `dropWhile` does nothing when no element satisfies the predicate. -/
theorem dropWhile_eq_self_of_all_false (p : String → Bool) (l : List String)
    (h : ∀ x ∈ l, p x = false) : l.dropWhile p = l := by
  induction l with
  | nil => rfl
  | cons c rest _ =>
    rw [List.dropWhile_cons, h c (List.mem_cons_self c rest)]
    simp

/-- Trimming trailing empties does nothing to a list of nonempty cells. -/
theorem dropTrailingEmpty_eq_self (l : List String)
    (h : ∀ x ∈ l, ¬x = "") : dropTrailingEmpty l = l := by
  unfold dropTrailingEmpty
  rw [dropWhile_eq_self_of_all_false _ _
    (fun x hx => beq_eq_false_iff_ne.mpr (h x (List.mem_reverse.mp hx)))]
  exact List.reverse_reverse l

/-- C9: the column read `load_data` is fail-soft and header-stripping.
(1) A backend that raises during the read is absorbed: exactly one error
log entry and an empty result.  (2) A header that `find` does not locate
gives an empty result with no log entry.  (3) When the header is located in
the worksheet's first row at column `j` and the data cells of that column
are nonempty, the result is exactly the column's data cells in order, with
the header row excluded (`data.pop(0)`), and no log entry. -/
theorem c9_read_column_fail_soft :
    (∀ column, load_data none column = ([], 1))
  ∧ (∀ (g : Grid) column, findCell column g = none →
      load_data (some g) column = ([], 0))
  ∧ (∀ (headers : List String) (rows : List (List String)) (column : String)
      (j : Nat), findInRow column headers = some j → column ≠ "" →
      (∀ r ∈ rows, ¬r.getD j ("") = "") →
      load_data (some (headers :: rows)) column
        = (rows.map (fun r => r.getD j ("")), 0)) := by
  refine ⟨fun _ => rfl, ?_, ?_⟩
  · intro g column h
    unfold load_data
    dsimp only
    rw [h]
  · intro headers rows column j hfind hne hcells
    have hcol : findCell column (headers :: rows) = some (0, j) := by
      unfold findCell
      rw [hfind]
    have hvals : colValues (headers :: rows) j
        = column :: rows.map (fun r => r.getD j ("")) := by
      unfold colValues
      rw [List.map_cons, findInRow_getD column headers j hfind]
      apply dropTrailingEmpty_eq_self
      intro x hx
      rcases List.mem_cons.mp hx with rfl | hx
      · exact hne
      · obtain ⟨r, hr, rfl⟩ := List.mem_map.mp hx
        exact hcells r hr
    unfold load_data
    dsimp only
    rw [hcol]
    dsimp only
    rw [hvals]

/-- C9 witness: a categories worksheet with header "Category" in row 1 and
two data cells reads back exactly the two data cells with no log entry. -/
theorem c9_witness :
    findInRow ("Category") [("Category")] = some 0
  ∧ load_data (some [[("Category")], [("food")], [("misc")]]) ("Category")
      = ([("food"), ("misc")], 0) :=
  ⟨rfl, by
    have h := c9_read_column_fail_soft.2.2 [("Category")]
      [[("food")], [("misc")]] ("Category") 0 rfl (by decide) (by decide)
    simpa using h⟩

/-- The first row of the grid written by `save_expenses` starts with the
cell "Expense Name", so `find` locates that text at position (0, 0); column
0 of that grid is the three header cells, and `load_data` hands back the
last two after `pop(0)`. -/
theorem load_data_saved_expense_name (ser : ℚ → String) (es : List Expense) :
    load_data (some (save_expenses ser es)) ("Expense Name")
      = ([("Amount"), ("Category")], 0) := by
  have hfind : findCell ("Expense Name") (save_expenses ser es)
      = some (0, 0) := by
    unfold save_expenses findCell
    rw [findInRow, if_pos rfl]
  have hvals : colValues (save_expenses ser es) 0
      = [("Expense Name"), ("Amount"), ("Category")] := by
    unfold save_expenses colValues
    rw [List.map_cons, List.map_cons, List.map_cons, List.map_nil,
      List.getD_cons_zero, List.getD_cons_zero, List.getD_cons_zero]
    decide
  unfold load_data
  dsimp only
  rw [hfind]
  dsimp only
  rw [hvals]

/-- `find` on the saved grid locates "Amount" at position (1, 0) — the
header cell of the second ROW — as long as no expense name collides with
the text "Amount"; the column read back is again the header column. -/
theorem load_data_saved_amount (ser : ℚ → String) (es : List Expense)
    (h1 : ("Amount" : String) ∉ es.map (fun e => e.name)) :
    load_data (some (save_expenses ser es)) ("Amount")
      = ([("Amount"), ("Category")], 0) := by
  have hfind : findCell ("Amount") (save_expenses ser es) = some (1, 0) := by
    unfold save_expenses findCell
    rw [findInRow, if_neg (by decide), findInRow_eq_none _ _ h1]
    dsimp only [Option.map_none']
    rw [findCell, findInRow, if_pos rfl]
    rfl
  have hvals : colValues (save_expenses ser es) 0
      = [("Expense Name"), ("Amount"), ("Category")] := by
    unfold save_expenses colValues
    rw [List.map_cons, List.map_cons, List.map_cons, List.map_nil,
      List.getD_cons_zero, List.getD_cons_zero, List.getD_cons_zero]
    decide
  unfold load_data
  dsimp only
  rw [hfind]
  dsimp only
  rw [hvals]

/-- `find` on the saved grid locates "Category" at position (2, 0) as long
as neither an expense name nor a serialized amount collides with the text
"Category"; the column read back is again the header column. -/
theorem load_data_saved_category (ser : ℚ → String) (es : List Expense)
    (h2 : ("Category" : String) ∉ es.map (fun e => e.name))
    (h3 : ("Category" : String) ∉ es.map (fun e => ser e.amount)) :
    load_data (some (save_expenses ser es)) ("Category")
      = ([("Amount"), ("Category")], 0) := by
  have hfind : findCell ("Category") (save_expenses ser es) = some (2, 0) := by
    unfold save_expenses findCell
    rw [findInRow, if_neg (by decide), findInRow_eq_none _ _ h2]
    dsimp only [Option.map_none']
    rw [findCell, findInRow, if_neg (by decide), findInRow_eq_none _ _ h3]
    dsimp only [Option.map_none']
    rw [findCell, findInRow, if_pos rfl]
    rfl
  have hvals : colValues (save_expenses ser es) 0
      = [("Expense Name"), ("Amount"), ("Category")] := by
    unfold save_expenses colValues
    rw [List.map_cons, List.map_cons, List.map_cons, List.map_nil,
      List.getD_cons_zero, List.getD_cons_zero, List.getD_cons_zero]
    decide
  unfold load_data
  dsimp only
  rw [hfind]
  dsimp only
  rw [hvals]

/-- C2: the claim says save-then-load round-trips the expense sequence.  In
the code it cannot: `save_expenses` hands `sheet.update` the three
sequences as three ROWS (`data_to_save` is a row list), while
`load_expenses` locates each header with `find` and reads its COLUMN, so
after a save every one of the three reads returns the header column
["Amount", "Category"], and the loop then dies on
`float("Amount")` — the whole reload result is `[]`, which differs from any
nonempty original.  The statement holds for every serializer `ser` used
for `str(amount)` and every nonempty expense list whose texts do not
collide with the two header names. -/
theorem c2_roundtrip_returns_empty (ser : ℚ → String) (es : List Expense)
    (hne : es ≠ [])
    (h1 : ("Amount" : String) ∉ es.map (fun e => e.name))
    (h2 : ("Category" : String) ∉ es.map (fun e => e.name))
    (h3 : ("Category" : String) ∉ es.map (fun e => ser e.amount)) :
    load_expenses (save_expenses ser es) = []
  ∧ load_expenses (save_expenses ser es) ≠ es := by
  have hload : load_expenses (save_expenses ser es) = [] := by
    unfold load_expenses
    rw [load_data_saved_expense_name ser es, load_data_saved_amount ser es h1,
      load_data_saved_category ser es h2 h3]
    decide
  exact ⟨hload, fun hcontra => hne ((hload.symm.trans hcontra).symm)⟩

/-- C2 witness: saving the single expense ("Lunch", 5.0, "Food") and
reloading yields the empty list, not the original. -/
theorem c2_witness :
    load_expenses (save_expenses (fun _ => ("5.0"))
      [Expense.mk ("Lunch") 5 ("Food")]) = []
  ∧ load_expenses (save_expenses (fun _ => ("5.0"))
      [Expense.mk ("Lunch") 5 ("Food")]) ≠ [Expense.mk ("Lunch") 5 ("Food")] :=
  c2_roundtrip_returns_empty (fun _ => ("5.0")) [Expense.mk ("Lunch") 5 ("Food")]
    (by simp) (by decide) (by decide) (by decide)

/-- Pointwise sums split over a list. -/
theorem sum_map_add {α : Type} (l : List α) (f g : α → ℚ) :
    (l.map (fun x => f x + g x)).sum = (l.map f).sum + (l.map g).sum := by
  induction l with
  | nil => simp
  | cons a l ih =>
    simp only [List.map_cons, List.sum_cons, ih]
    ring

/-- Summing a keyed indicator over entries none of which carry the key. -/
theorem sum_ite_key_eq_zero (c : String) (a : ℚ) (m : List (String × ℚ))
    (h : ∀ p ∈ m, ¬p.1 = c) :
    (m.map (fun p => if p.1 == c then a else 0)).sum = 0 := by
  induction m with
  | nil => rfl
  | cons p m ih =>
    have hp : ¬(p.1 == c) = true :=
      fun hb => h p (List.mem_cons_self p m) (beq_iff_eq.mp hb)
    rw [List.map_cons, List.sum_cons, if_neg hp,
      ih (fun q hq => h q (List.mem_cons_of_mem p hq)), add_zero]

/-- Summing a keyed indicator over a nodup-keyed list that does carry the
key picks it up exactly once. -/
theorem sum_ite_key_eq_single (c : String) (a : ℚ) (m : List (String × ℚ))
    (hnd : (totalsKeys m).Nodup) (hany : m.any (fun p => p.1 == c) = true) :
    (m.map (fun p => if p.1 == c then a else 0)).sum = a := by
  induction m with
  | nil => exact absurd hany (by simp)
  | cons p m ih =>
    unfold totalsKeys at hnd
    rw [List.map_cons] at hnd
    have hnd2 := List.nodup_cons.mp hnd
    by_cases hp : p.1 = c
    · subst hp
      simp only [List.map_cons, List.sum_cons, beq_self_eq_true, if_true]
      rw [sum_ite_key_eq_zero p.1 a m
        (fun q hq hqc => hnd2.1 (List.mem_map.mpr ⟨q, hq, hqc⟩))]
      ring
    · have hpf : (p.1 == c) = false := beq_eq_false_iff_ne.mpr hp
      have hany2 : m.any (fun p => p.1 == c) = true := by
        rw [List.any_cons, hpf] at hany
        simpa using hany
      have hpt : ¬(p.1 == c) = true := by
        rw [hpf]
        exact Bool.false_ne_true
      rw [List.map_cons, List.sum_cons, if_neg hpt, ih hnd2.2 hany2, zero_add]

/-- Any-with-key matches membership in the key sequence. -/
theorem any_key_iff (m : List (String × ℚ)) (c : String) :
    m.any (fun p => p.1 == c) = true ↔ c ∈ totalsKeys m := by
  unfold totalsKeys
  simp [List.any_eq_true, List.mem_map]

/-- One `summarize_expenses` loop step adds the expense's amount to the
value at its own key and leaves every other key's value unchanged. -/
theorem valueAt_stepTotals (c : String) (m : List (String × ℚ)) (e : Expense)
    (hnd : (totalsKeys m).Nodup) :
    valueAt c (stepTotals m e)
      = valueAt c m + (if e.category == c then e.amount else 0) := by
  unfold stepTotals
  by_cases hany : m.any (fun p => p.1 == e.category) = true
  · rw [if_pos hany]
    unfold valueAt
    rw [List.map_map]
    by_cases hc : e.category = c
    · subst hc
      have hmap : ∀ p ∈ m,
          ((fun p => if p.1 == e.category then p.2 else 0) ∘
            (fun p => if p.1 == e.category then (p.1, p.2 + e.amount) else p)) p
          = (if p.1 == e.category then p.2 else 0)
            + (if p.1 == e.category then e.amount else 0) := by
        intro p _
        by_cases hp : p.1 = e.category
        · have hb : (p.1 == e.category) = true := beq_iff_eq.mpr hp
          simp [Function.comp, hb]
        · have hb : (p.1 == e.category) = false := beq_eq_false_iff_ne.mpr hp
          simp [Function.comp, hb]
      rw [List.map_congr_left hmap, sum_map_add m
        (fun p => if p.1 == e.category then p.2 else 0)
        (fun p => if p.1 == e.category then e.amount else 0),
        sum_ite_key_eq_single e.category e.amount m hnd hany]
      simp
    · have hmap : ∀ p ∈ m,
          ((fun p => if p.1 == c then p.2 else 0) ∘
            (fun p => if p.1 == e.category then (p.1, p.2 + e.amount) else p)) p
          = (if p.1 == c then p.2 else 0) := by
        intro p _
        by_cases hp : p.1 = e.category
        · have hb : (p.1 == e.category) = true := beq_iff_eq.mpr hp
          have hbc : (p.1 == c) = false :=
            beq_eq_false_iff_ne.mpr (fun hpc => hc (hp.symm.trans hpc))
          simp [Function.comp, hb, hbc]
        · have hb : (p.1 == e.category) = false := beq_eq_false_iff_ne.mpr hp
          simp [Function.comp, hb]
      rw [List.map_congr_left hmap]
      have hb : (e.category == c) = false := beq_eq_false_iff_ne.mpr hc
      simp [hb]
  · rw [if_neg hany]
    unfold valueAt
    rw [List.map_append, List.sum_append]
    by_cases hcat : e.category = c
    · simp [hcat]
    · simp [hcat]

/-- One `summarize_expenses` loop step grows the sum of the dict's values
by exactly the expense's amount. -/
theorem sumValues_stepTotals (m : List (String × ℚ)) (e : Expense)
    (hnd : (totalsKeys m).Nodup) :
    sumValues (stepTotals m e) = sumValues m + e.amount := by
  unfold stepTotals
  by_cases hany : m.any (fun p => p.1 == e.category) = true
  · rw [if_pos hany]
    unfold sumValues
    rw [List.map_map]
    have hmap : ∀ p ∈ m,
        (Prod.snd ∘
          (fun p => if p.1 == e.category then (p.1, p.2 + e.amount) else p)) p
        = p.2 + (if p.1 == e.category then e.amount else 0) := by
      intro p _
      by_cases hp : p.1 = e.category
      · have hb : (p.1 == e.category) = true := beq_iff_eq.mpr hp
        simp [Function.comp, hb]
      · have hb : (p.1 == e.category) = false := beq_eq_false_iff_ne.mpr hp
        simp [Function.comp, hb]
    rw [List.map_congr_left hmap, sum_map_add m Prod.snd
      (fun p => if p.1 == e.category then e.amount else 0),
      sum_ite_key_eq_single e.category e.amount m hnd hany]
  · rw [if_neg hany]
    unfold sumValues
    simp

/-- One loop step updates an existing key in place and appends an absent
one at the end  — exactly Python dict insertion-order behaviour. -/
theorem totalsKeys_stepTotals (m : List (String × ℚ)) (e : Expense) :
    totalsKeys (stepTotals m e)
      = if e.category ∈ totalsKeys m then totalsKeys m
        else totalsKeys m ++ [e.category] := by
  unfold stepTotals
  by_cases hany : m.any (fun p => p.1 == e.category) = true
  · rw [if_pos hany, if_pos ((any_key_iff m e.category).mp hany)]
    unfold totalsKeys
    rw [List.map_map]
    apply List.map_congr_left
    intro p _
    by_cases hp : p.1 = e.category
    · have hb : (p.1 == e.category) = true := beq_iff_eq.mpr hp
      simp [Function.comp, hb]
    · have hb : (p.1 == e.category) = false := beq_eq_false_iff_ne.mpr hp
      simp [Function.comp, hb]
  · have hmem : e.category ∉ totalsKeys m :=
      fun hm => hany ((any_key_iff m e.category).mpr hm)
    rw [if_neg hany, if_neg hmem]
    unfold totalsKeys
    simp

/-- Key uniqueness is preserved by one loop step. -/
theorem nodup_stepTotals (m : List (String × ℚ)) (e : Expense)
    (hnd : (totalsKeys m).Nodup) : (totalsKeys (stepTotals m e)).Nodup := by
  rw [totalsKeys_stepTotals]
  by_cases hm : e.category ∈ totalsKeys m
  · rw [if_pos hm]
    exact hnd
  · rw [if_neg hm]
    simp [List.nodup_append, hnd, hm]

/-- Filter-based matching sum, unfolded one expense at a time. -/
theorem sumMatching_cons (c : String) (e : Expense) (es : List Expense) :
    sumMatching c (e :: es)
      = (if e.category == c then e.amount else 0) + sumMatching c es := by
  unfold sumMatching
  rw [List.filter_cons]
  by_cases h : (e.category == c) = true
  · rw [if_pos h, if_pos h, List.map_cons, List.sum_cons]
  · rw [if_neg h, if_neg h, zero_add]

/-- Amount sums, unfolded one expense at a time. -/
theorem sumAmounts_cons (e : Expense) (es : List Expense) :
    sumAmounts (e :: es) = e.amount + sumAmounts es := by
  unfold sumAmounts
  rw [List.map_cons, List.sum_cons]

/-- The running-total loop of `summarize_expenses` computes the arithmetic
sum of the amounts on top of its start value. -/
theorem foldl_total_eq (es : List Expense) : ∀ t0 : ℚ,
    es.foldl (fun t e => t + e.amount) t0 = t0 + sumAmounts es := by
  induction es with
  | nil =>
    intro t0
    simp [sumAmounts]
  | cons e es ih =>
    intro t0
    rw [List.foldl_cons, ih (t0 + e.amount), sumAmounts_cons, add_assoc]

/-- Key uniqueness holds along the whole `summarize_expenses` loop. -/
theorem nodup_foldl_stepTotals (es : List Expense) : ∀ m,
    (totalsKeys m).Nodup → (totalsKeys (es.foldl stepTotals m)).Nodup := by
  induction es with
  | nil => exact fun _ h => h
  | cons e es ih =>
    intro m hm
    rw [List.foldl_cons]
    exact ih _ (nodup_stepTotals m e hm)

/-- The dict's value sum along the loop is the start sum plus all amounts. -/
theorem sumValues_foldl_stepTotals (es : List Expense) : ∀ m,
    (totalsKeys m).Nodup →
    sumValues (es.foldl stepTotals m) = sumValues m + sumAmounts es := by
  induction es with
  | nil =>
    intro m _
    simp [sumAmounts]
  | cons e es ih =>
    intro m hm
    rw [List.foldl_cons, ih _ (nodup_stepTotals m e hm),
      sumValues_stepTotals m e hm, sumAmounts_cons]
    ring

/-- The value at each key along the loop is the start value plus the sum of
the amounts of exactly the matching expenses. -/
theorem valueAt_foldl_stepTotals (es : List Expense) (c : String) : ∀ m,
    (totalsKeys m).Nodup →
    valueAt c (es.foldl stepTotals m) = valueAt c m + sumMatching c es := by
  induction es with
  | nil =>
    intro m _
    simp [sumMatching, valueAt]
  | cons e es ih =>
    intro m hm
    rw [List.foldl_cons, ih _ (nodup_stepTotals m e hm),
      valueAt_stepTotals c m e hm, sumMatching_cons]
    ring

/-- The key sequence along the loop lists categories in first-seen order. -/
theorem totalsKeys_foldl_stepTotals (es : List Expense) : ∀ m,
    totalsKeys (es.foldl stepTotals m)
      = firstSeen (totalsKeys m) (es.map (fun e => e.category)) := by
  induction es with
  | nil => exact fun _ => rfl
  | cons e es ih =>
    intro m
    rw [List.foldl_cons, List.map_cons, firstSeen, ih (stepTotals m e),
      totalsKeys_stepTotals]

/-- C5: for every expense sequence, including the empty one, the
`summarize_expenses` total is the arithmetic sum of the amounts; the
per-category totals partition it (their sum equals the total); each
category's total is the sum of the amounts of exactly the expenses whose
category label matches that key (exact, case-sensitive `==`); and the
mapping lists its keys without duplicates in first-seen order. -/
theorem c5_summarize_invariants (es : List Expense) :
    totalExpenses es = sumAmounts es
  ∧ sumValues (categoryTotals es) = totalExpenses es
  ∧ (∀ c, valueAt c (categoryTotals es) = sumMatching c es)
  ∧ totalsKeys (categoryTotals es)
      = firstSeen [] (es.map (fun e => e.category))
  ∧ (totalsKeys (categoryTotals es)).Nodup := by
  have hnil : (totalsKeys ([] : List (String × ℚ))).Nodup := List.nodup_nil
  have htot : totalExpenses es = sumAmounts es := by
    unfold totalExpenses
    rw [foldl_total_eq es 0, zero_add]
  refine ⟨htot, ?_, ?_, ?_, ?_⟩
  · unfold categoryTotals
    rw [sumValues_foldl_stepTotals es [] hnil, htot]
    simp [sumValues]
  · intro c
    unfold categoryTotals
    rw [valueAt_foldl_stepTotals es c [] hnil]
    simp [valueAt]
  · unfold categoryTotals
    rw [totalsKeys_foldl_stepTotals es []]
    rfl
  · unfold categoryTotals
    exact nodup_foldl_stepTotals es [] hnil

/-- C6: the budget classification of `summarize_expenses` is an exact
three-way comparison with no tolerance: total below budget colors the
total green (under budget), above colors it red (over budget), equality
leaves it white (neutral); at total 100.00 the budgets 100.00, 100.01 and
99.99 give white, green and red respectively. -/
theorem c6_budget_three_way (es : List Expense) (budget : ℚ) :
    (totalExpenses es < budget → summarizeIndicator es budget = ("green"))
  ∧ (budget < totalExpenses es → summarizeIndicator es budget = ("red"))
  ∧ (totalExpenses es = budget → summarizeIndicator es budget = ("white"))
  ∧ summarizeIndicator [Expense.mk ("x") 100 ("c")] 100 = ("white")
  ∧ summarizeIndicator [Expense.mk ("x") 100 ("c")] (10001 / 100) = ("green")
  ∧ summarizeIndicator [Expense.mk ("x") 100 ("c")] (9999 / 100) = ("red") := by
  have h100 : totalExpenses [Expense.mk ("x") 100 ("c")] = 100 := by
    show (0 : ℚ) + 100 = 100
    norm_num
  refine ⟨?_, ?_, ?_, ?_, ?_, ?_⟩
  · intro h
    show (if totalExpenses es < budget then ("green")
      else if totalExpenses es > budget then ("red") else ("white")) = ("green")
    rw [if_pos h]
  · intro h
    show (if totalExpenses es < budget then ("green")
      else if totalExpenses es > budget then ("red") else ("white")) = ("red")
    rw [if_neg (not_lt.mpr (le_of_lt h)), if_pos h]
  · intro h
    show (if totalExpenses es < budget then ("green")
      else if totalExpenses es > budget then ("red") else ("white")) = ("white")
    rw [if_neg (by rw [h]; exact lt_irrefl budget),
      if_neg (by rw [h]; exact lt_irrefl budget)]
  · show (if totalExpenses [Expense.mk ("x") 100 ("c")] < 100 then ("green")
      else if totalExpenses [Expense.mk ("x") 100 ("c")] > 100 then ("red")
      else ("white")) = ("white")
    rw [h100, if_neg (lt_irrefl (100 : ℚ)), if_neg (lt_irrefl (100 : ℚ))]
  · show (if totalExpenses [Expense.mk ("x") 100 ("c")] < 10001 / 100
      then ("green")
      else if totalExpenses [Expense.mk ("x") 100 ("c")] > 10001 / 100
      then ("red") else ("white")) = ("green")
    rw [h100, if_pos (by norm_num : (100 : ℚ) < 10001 / 100)]
  · show (if totalExpenses [Expense.mk ("x") 100 ("c")] < 9999 / 100
      then ("green")
      else if totalExpenses [Expense.mk ("x") 100 ("c")] > 9999 / 100
      then ("red") else ("white")) = ("red")
    rw [h100, if_neg (by norm_num : ¬(100 : ℚ) < 9999 / 100),
      if_pos (by norm_num : (100 : ℚ) > 9999 / 100)]

/-- C6 witness: a total of 100.00 against budget 100.01 is classified
under budget (green). -/
theorem c6_witness :
    totalExpenses [Expense.mk ("x") 100 ("c")] < 10001 / 100
  ∧ summarizeIndicator [Expense.mk ("x") 100 ("c")] (10001 / 100)
      = ("green") :=
  ⟨by
    show (0 : ℚ) + 100 < 10001 / 100
    norm_num,
   (c6_budget_three_way [Expense.mk ("x") 100 ("c")] (10001 / 100)).1
    (by
      show (0 : ℚ) + 100 < 10001 / 100
      norm_num)⟩

end ExpenseTracker
